import Mathlib

/-!
Verification of the NutriPal diet-log persistence and summary-generation
routines (src/app.py): the `LogEntry` record built by the Diet Tracker form,
the per-owner JSON file store (`save_log_json`), the bucketed summary
(`generate_summary`), and the summary e-mail path (`send_summary_email`),
together with the advisory pass and scheduled job described by the
specification for the repository variants not present in src/.
-/

/-- One diet-log record, as built by the Diet Tracker form in src/app.py
(lines 190-197): `timestamp` is minute-precision "YYYY-MM-DD HH:MM",
`date` is "YYYY-MM-DD", `water` is an integer count of cups, and `email`
is the owner identifier. -/
structure LogEntry where
  timestamp : String
  meal_type : String
  description : String
  water : Int
  date : String
  email : String
deriving Repr, DecidableEq

/-- One summary bucket: the ordered rendered meal lines and the running
water total, matching the `defaultdict(lambda: {"meals": [], "water": 0})`
value shape of src/app.py. -/
structure Bucket where
  meals : List String
  water : Int
deriving Repr, DecidableEq

/-- The rendered meal line `f"{entry['meal_type']}: {entry['description']}"`
of src/app.py lines 82 and 110. -/
def mealLine (e : LogEntry) : String :=
  e.meal_type ++ ": " ++ e.description

/-- The bucket key of src/app.py lines 81 and 109:
`entry["date"] if mode == "daily" else entry["timestamp"][:7]`. -/
def bucketKey (mode : String) (e : LogEntry) : String :=
  if mode = "daily" then e.date else e.timestamp.take 7

/-- Insertion-ordered update of the summary association list, modelling one
defaultdict access of src/app.py lines 110-111: if `key` is already a bucket,
append the meal line and add the water in place; otherwise a fresh bucket
appears at the end (Python dicts preserve insertion order). -/
def addToSummary (s : List (String × Bucket)) (key line : String) (w : Int) :
    List (String × Bucket) :=
  match s with
  | [] => [(key, ⟨[line], w⟩)]
  | (k, b) :: rest =>
    if k = key then (k, ⟨b.meals ++ [line], b.water + w⟩) :: rest
    else (k, b) :: addToSummary rest key line w

/-- `generate_summary` of src/app.py lines 106-112: fold the entries in input
order into an insertion-ordered bucket map. -/
def generate_summary (log_data : List LogEntry) (mode : String) :
    List (String × Bucket) :=
  log_data.foldl
    (fun s e => addToSummary s (bucketKey mode e) (mealLine e) e.water) []

/-- Look a bucket up by key, with the defaultdict default `{"meals": [], "water": 0}`. -/
def findBucket (s : List (String × Bucket)) (key : String) : Bucket :=
  match s with
  | [] => ⟨[], 0⟩
  | (k, b) :: rest => if k = key then b else findBucket rest key

/-- The file system visible to the diet-log store: a map from path strings to
the parsed JSON array stored at that path, `none` where no file exists. -/
def FS : Type := String → Option (List LogEntry)

/-- The per-owner log path `f"logs/{user_email}_diet_log.json"` of
src/app.py lines 56 and 72. -/
def filePath (owner : String) : String :=
  "logs/" ++ owner ++ "_diet_log.json"

/-- Read an owner's full stored history in storage order, the empty sequence
when the owner has never logged — the `log_data = []` /
`if os.path.exists` read of src/app.py lines 58-61. -/
def loadAll (fs : FS) (owner : String) : List LogEntry :=
  (fs (filePath owner)).getD []

/-- `save_log_json` of src/app.py lines 55-64: load the owner's existing
sequence (empty if the file does not exist), append the entry, write the full
sequence back to the owner's path. -/
def save_log_json (fs : FS) (owner : String) (entry : LogEntry) : FS :=
  fun p => if p = filePath owner then some (loadAll fs owner ++ [entry]) else fs p

/-- A finite sequence of `save_log_json` calls for one owner, in call order. -/
def appendAll (fs : FS) (owner : String) (entries : List LogEntry) : FS :=
  entries.foldl (fun s e => save_log_json s owner e) fs

lemma filePath_inj {a b : String} (h : filePath a = filePath b) : a = b := by
  have hd : "logs/".data ++ (a.data ++ "_diet_log.json".data)
      = "logs/".data ++ (b.data ++ "_diet_log.json".data) := by
    have := congrArg String.data h
    simpa [filePath, String.data_append, List.append_assoc] using this
  exact String.ext (List.append_cancel_right (List.append_cancel_left hd))

lemma loadAll_save_same (fs : FS) (owner : String) (e : LogEntry) :
    loadAll (save_log_json fs owner e) owner = loadAll fs owner ++ [e] := by
  simp [loadAll, save_log_json]

lemma loadAll_appendAll (fs : FS) (owner : String) (entries : List LogEntry) :
    loadAll (appendAll fs owner entries) owner = loadAll fs owner ++ entries := by
  induction entries generalizing fs with
  | nil => simp [appendAll]
  | cons e rest ih =>
    have : appendAll fs owner (e :: rest)
        = appendAll (save_log_json fs owner e) owner rest := rfl
    rw [this, ih, loadAll_save_same, List.append_assoc]
    rfl

/-- C2: appending via `save_log_json` loads the owner's stored sequence (empty
when no file exists), appends at the end and writes the whole sequence back,
so after any finite sequence of appends to an owner that starts with no file,
`loadAll` returns exactly the entries in call order. -/
theorem save_log_json_append_order (fs : FS) (owner : String)
    (entries : List LogEntry) (h : fs (filePath owner) = none) :
    loadAll (appendAll fs owner entries) owner = entries := by
  rw [loadAll_appendAll]
  simp [loadAll, h]

/-- Witness for C2 at a concrete empty store and two concrete entries. -/
theorem save_log_json_append_order_witness :
    loadAll
      (appendAll (fun _ => none) "ada"
        [⟨"2024-01-02 09:00", "Breakfast", "akara", 2, "2024-01-02", "ada"⟩,
         ⟨"2024-01-02 13:00", "Lunch", "rice", 1, "2024-01-02", "ada"⟩]) "ada"
    = [⟨"2024-01-02 09:00", "Breakfast", "akara", 2, "2024-01-02", "ada"⟩,
       ⟨"2024-01-02 13:00", "Lunch", "rice", 1, "2024-01-02", "ada"⟩] :=
  save_log_json_append_order (fun _ => none) "ada" _ rfl

/-- C3: appending an entry for owner A leaves every other owner B's stored
sequence unchanged, because distinct owners map to distinct file paths. -/
theorem save_log_json_isolation (fs : FS) (A B : String) (e : LogEntry)
    (h : A ≠ B) :
    loadAll (save_log_json fs A e) B = loadAll fs B := by
  have hp : filePath B ≠ filePath A := fun hc => h (filePath_inj hc).symm
  simp [loadAll, save_log_json, hp]

/-- Witness for C3 at two concrete distinct owners. -/
theorem save_log_json_isolation_witness :
    loadAll
      (save_log_json
        (fun p => if p = filePath "bisi" then
            some [⟨"2024-01-01 08:00", "Breakfast", "pap", 1, "2024-01-01", "bisi"⟩]
          else none)
        "ada" ⟨"2024-01-02 09:00", "Snack", "chin chin", 0, "2024-01-02", "ada"⟩)
      "bisi"
    = [⟨"2024-01-01 08:00", "Breakfast", "pap", 1, "2024-01-01", "bisi"⟩] := by
  rw [save_log_json_isolation _ "ada" "bisi" _ (by decide)]
  simp [loadAll]

lemma addToSummary_single (d line : String) (b : Bucket) (w : Int) :
    addToSummary [(d, b)] d line w = [(d, ⟨b.meals ++ [line], b.water + w⟩)] := by
  simp [addToSummary]

lemma foldl_daily_single_bucket (entries : List LogEntry) (d : String)
    (b : Bucket) (h : ∀ e ∈ entries, e.date = d) :
    List.foldl
      (fun s e => addToSummary s (bucketKey "daily" e) (mealLine e) e.water)
      [(d, b)] entries
    = [(d, ⟨b.meals ++ entries.map mealLine,
            b.water + (entries.map LogEntry.water).sum⟩)] := by
  induction entries generalizing b with
  | nil => simp
  | cons e rest ih =>
    have hd : e.date = d := h e (List.mem_cons_self e rest)
    have hk : bucketKey "daily" e = d := by simp [bucketKey, hd]
    have hrest : ∀ x ∈ rest, x.date = d := fun x hx => h x (List.mem_cons_of_mem e hx)
    calc
      List.foldl
          (fun s x => addToSummary s (bucketKey "daily" x) (mealLine x) x.water)
          [(d, b)] (e :: rest)
        = List.foldl
            (fun s x => addToSummary s (bucketKey "daily" x) (mealLine x) x.water)
            (addToSummary [(d, b)] (bucketKey "daily" e) (mealLine e) e.water) rest := rfl
      _ = List.foldl
            (fun s x => addToSummary s (bucketKey "daily" x) (mealLine x) x.water)
            [(d, ⟨b.meals ++ [mealLine e], b.water + e.water⟩)] rest := by
            rw [hk, addToSummary_single]
      _ = [(d, ⟨b.meals ++ (e :: rest).map mealLine,
                b.water + ((e :: rest).map LogEntry.water).sum⟩)] := by
            rw [ih _ hrest]
            simp [List.append_assoc, add_assoc]

/-- C1: for a non-empty entry list all sharing one `date`, daily
`generate_summary` yields exactly one bucket, keyed by that date, whose water
total is the sum of the entries' water and whose meal-line list has one
rendered line per entry in input order (so keys are in first-seen order and
never merged or re-sorted). -/
theorem generate_summary_daily_same_date (entries : List LogEntry) (d : String)
    (hne : entries ≠ []) (h : ∀ e ∈ entries, e.date = d) :
    generate_summary entries "daily"
      = [(d, ⟨entries.map mealLine, (entries.map LogEntry.water).sum⟩)] := by
  match entries, hne with
  | e :: rest, _ =>
    have hd : e.date = d := h e (List.mem_cons_self e rest)
    have hk : bucketKey "daily" e = d := by simp [bucketKey, hd]
    have hrest : ∀ x ∈ rest, x.date = d := fun x hx => h x (List.mem_cons_of_mem e hx)
    calc
      generate_summary (e :: rest) "daily"
        = List.foldl
            (fun s x => addToSummary s (bucketKey "daily" x) (mealLine x) x.water)
            [(bucketKey "daily" e, ⟨[mealLine e], e.water⟩)] rest := rfl
      _ = [(d, ⟨(e :: rest).map mealLine, ((e :: rest).map LogEntry.water).sum⟩)] := by
            rw [hk, foldl_daily_single_bucket rest d _ hrest]
            simp

/-- Witness for C1 at a concrete two-entry list sharing one date. -/
theorem generate_summary_daily_same_date_witness :
    generate_summary
      [⟨"2024-01-02 09:00", "Breakfast", "akara", 2, "2024-01-02", "ada"⟩,
       ⟨"2024-01-02 13:00", "Lunch", "jollof rice", 3, "2024-01-02", "ada"⟩] "daily"
    = [("2024-01-02", ⟨["Breakfast: akara", "Lunch: jollof rice"], 5⟩)] := by
  rw [generate_summary_daily_same_date _ "2024-01-02" (by decide) (by decide)]
  decide

lemma findBucket_addToSummary_same (s : List (String × Bucket))
    (key line : String) (w : Int) :
    findBucket (addToSummary s key line w) key
      = ⟨(findBucket s key).meals ++ [line], (findBucket s key).water + w⟩ := by
  induction s with
  | nil => simp [addToSummary, findBucket]
  | cons kb rest ih =>
    match kb with
    | (k, b) =>
      by_cases hk : k = key
      · simp [addToSummary, findBucket, hk]
      · simp [addToSummary, findBucket, hk, ih]

lemma findBucket_addToSummary_ne (s : List (String × Bucket))
    (key line k : String) (w : Int) (h : k ≠ key) :
    findBucket (addToSummary s key line w) k = findBucket s k := by
  have h' : key ≠ k := Ne.symm h
  induction s with
  | nil => simp [addToSummary, findBucket, h']
  | cons kb rest ih =>
    match kb with
    | (k', b) =>
      by_cases hk : k' = key
      · subst hk
        simp [addToSummary, findBucket, h']
      · simp [addToSummary, findBucket, hk, ih]

lemma generate_summary_snoc (l : List LogEntry) (mode : String) (e : LogEntry) :
    generate_summary (l ++ [e]) mode
      = addToSummary (generate_summary l mode) (bucketKey mode e) (mealLine e)
          e.water := by
  simp [generate_summary, List.foldl_append]

/-- C7: processing one more entry computes the bucket label as the entry's
`date` verbatim in daily mode and as the first 7 characters of its `timestamp`
otherwise, appends the rendered line "mealType: description" to that bucket's
meal list, adds the entry's water to that bucket's running total, and leaves
every other bucket of `generate_summary` unchanged. -/
theorem generate_summary_step (l : List LogEntry) (mode : String) (e : LogEntry) :
    findBucket (generate_summary (l ++ [e]) mode)
        (if mode = "daily" then e.date else e.timestamp.take 7)
      = ⟨(findBucket (generate_summary l mode)
            (if mode = "daily" then e.date else e.timestamp.take 7)).meals
           ++ [e.meal_type ++ ": " ++ e.description],
         (findBucket (generate_summary l mode)
            (if mode = "daily" then e.date else e.timestamp.take 7)).water
           + e.water⟩
    ∧ ∀ k, k ≠ (if mode = "daily" then e.date else e.timestamp.take 7) →
        findBucket (generate_summary (l ++ [e]) mode) k
          = findBucket (generate_summary l mode) k := by
  constructor
  · rw [generate_summary_snoc]
    exact findBucket_addToSummary_same _ _ _ _
  · intro k hk
    rw [generate_summary_snoc]
    exact findBucket_addToSummary_ne _ _ _ _ _ hk

/-- Witness for C7 at a concrete log, mode and entry, including the
unchanged-bucket part at a concrete other key. -/
theorem generate_summary_step_witness :
    findBucket
        (generate_summary
          [⟨"2024-01-02 09:00", "Breakfast", "akara", 2, "2024-01-02", "ada"⟩,
           ⟨"2024-01-02 13:00", "Lunch", "rice", 1, "2024-01-02", "ada"⟩] "daily")
        "2024-01-02"
      = ⟨["Breakfast: akara", "Lunch: rice"], 3⟩
    ∧ findBucket
        (generate_summary
          [⟨"2024-01-02 09:00", "Breakfast", "akara", 2, "2024-01-02", "ada"⟩,
           ⟨"2024-01-03 13:00", "Lunch", "rice", 1, "2024-01-03", "ada"⟩] "daily")
        "2024-01-02"
      = ⟨["Breakfast: akara"], 2⟩ := by
  constructor
  · have h :=
      (generate_summary_step
        [⟨"2024-01-02 09:00", "Breakfast", "akara", 2, "2024-01-02", "ada"⟩] "daily"
        ⟨"2024-01-02 13:00", "Lunch", "rice", 1, "2024-01-02", "ada"⟩).1
    simpa using h
  · have h :=
      ((generate_summary_step
        [⟨"2024-01-02 09:00", "Breakfast", "akara", 2, "2024-01-02", "ada"⟩] "daily"
        ⟨"2024-01-03 13:00", "Lunch", "rice", 1, "2024-01-03", "ada"⟩).2
        "2024-01-02" (by decide))
    rw [show
        ([⟨"2024-01-02 09:00", "Breakfast", "akara", 2, "2024-01-02", "ada"⟩]
          ++ [⟨"2024-01-03 13:00", "Lunch", "rice", 1, "2024-01-03", "ada"⟩]
          : List LogEntry)
        = [⟨"2024-01-02 09:00", "Breakfast", "akara", 2, "2024-01-02", "ada"⟩,
           ⟨"2024-01-03 13:00", "Lunch", "rice", 1, "2024-01-03", "ada"⟩] from rfl] at h
    rw [h]
    decide

/-- C10: for every mode other than "daily" — in particular the "weekly" mode
used by the Diet Tracker UI — `generate_summary` takes the else branch of its
key expression and buckets every entry by the first 7 characters of
`timestamp`, i.e. by calendar month. -/
theorem generate_summary_nondaily_is_monthly (l : List LogEntry) (mode : String)
    (h : mode ≠ "daily") :
    generate_summary l mode
      = List.foldl
          (fun s e => addToSummary s (e.timestamp.take 7) (mealLine e) e.water)
          [] l := by
  have hstep : (fun (s : List (String × Bucket)) (e : LogEntry) =>
        addToSummary s (bucketKey mode e) (mealLine e) e.water)
      = fun s e => addToSummary s (e.timestamp.take 7) (mealLine e) e.water := by
    funext s e
    rw [bucketKey, if_neg h]
  rw [generate_summary, hstep]

/-- Witness for C10 at mode "weekly" on a concrete two-month log. -/
theorem generate_summary_nondaily_is_monthly_witness :
    generate_summary
      [⟨"2024-01-02 09:00", "Breakfast", "akara", 2, "2024-01-02", "ada"⟩,
       ⟨"2024-02-03 13:00", "Lunch", "rice", 1, "2024-02-03", "ada"⟩] "weekly"
    = List.foldl
        (fun s e => addToSummary s (e.timestamp.take 7) (mealLine e) e.water)
        []
        [⟨"2024-01-02 09:00", "Breakfast", "akara", 2, "2024-01-02", "ada"⟩,
         ⟨"2024-02-03 13:00", "Lunch", "rice", 1, "2024-02-03", "ada"⟩] :=
  generate_summary_nondaily_is_monthly _ "weekly" (by decide)

/-- The projection of a `LogEntry` to the fields `generate_summary` reads:
timestamp, meal type, description, water and date (everything except the
owner identifier `email`). -/
def entryView (e : LogEntry) : String × String × String × Int × String :=
  (e.timestamp, e.meal_type, e.description, e.water, e.date)

lemma generate_summary_congr_aux (mode : String) :
    ∀ (l₁ l₂ : List LogEntry) (acc : List (String × Bucket)),
      l₁.map entryView = l₂.map entryView →
      List.foldl
          (fun s e => addToSummary s (bucketKey mode e) (mealLine e) e.water)
          acc l₁
        = List.foldl
            (fun s e => addToSummary s (bucketKey mode e) (mealLine e) e.water)
            acc l₂ := by
  intro l₁
  induction l₁ with
  | nil =>
    intro l₂ acc h
    cases l₂ with
    | nil => rfl
    | cons e t => simp at h
  | cons e₁ t₁ ih =>
    intro l₂ acc h
    cases l₂ with
    | nil => simp at h
    | cons e₂ t₂ =>
      rw [List.map_cons, List.map_cons] at h
      have h1 : entryView e₁ = entryView e₂ := (List.cons.injEq _ _ _ _ ▸ h).1
      have h2 : t₁.map entryView = t₂.map entryView := (List.cons.injEq _ _ _ _ ▸ h).2
      have ht : e₁.timestamp = e₂.timestamp := congrArg (fun v => v.1) h1
      have hm : e₁.meal_type = e₂.meal_type := congrArg (fun v => v.2.1) h1
      have hdc : e₁.description = e₂.description := congrArg (fun v => v.2.2.1) h1
      have hw : e₁.water = e₂.water := congrArg (fun v => v.2.2.2.1) h1
      have hdt : e₁.date = e₂.date := congrArg (fun v => v.2.2.2.2) h1
      have hkey : bucketKey mode e₁ = bucketKey mode e₂ := by
        rw [bucketKey, bucketKey, ht, hdt]
      have hline : mealLine e₁ = mealLine e₂ := by
        rw [mealLine, mealLine, hm, hdc]
      show List.foldl _ (addToSummary acc (bucketKey mode e₁) (mealLine e₁) e₁.water) t₁
          = List.foldl _ (addToSummary acc (bucketKey mode e₂) (mealLine e₂) e₂.water) t₂
      rw [hkey, hline, hw]
      exact ih t₂ _ h2

/-- C9: `generate_summary` is a pure, deterministic function of its arguments:
its output is fully determined by the fields it reads from the entries
(timestamp, meal type, description, water, date) and the mode — in particular
equal inputs give equal outputs, no state outside the arguments is consulted,
and entries differing only in the unused `email` field summarize
identically. -/
theorem generate_summary_deterministic (l₁ l₂ : List LogEntry) (mode : String)
    (h : l₁.map entryView = l₂.map entryView) :
    generate_summary l₁ mode = generate_summary l₂ mode :=
  generate_summary_congr_aux mode l₁ l₂ [] h

/-- Witness for C9: two concrete one-entry logs differing only in the owner
field summarize identically. -/
theorem generate_summary_deterministic_witness :
    generate_summary
        [⟨"2024-01-02 09:00", "Breakfast", "akara", 2, "2024-01-02", "ada"⟩] "daily"
      = generate_summary
        [⟨"2024-01-02 09:00", "Breakfast", "akara", 2, "2024-01-02", "bisi"⟩] "daily" :=
  generate_summary_deterministic _ _ "daily" (by decide)

/-- Does `needle` occur at the head of the character list? -/
def prefixMatch : List Char → List Char → Bool
  | [], _ => true
  | _ :: _, [] => false
  | a :: as, b :: bs => a == b && prefixMatch as bs

/-- Does `needle` occur as a contiguous sublist anywhere in the haystack? -/
def subMatch (needle : List Char) : List Char → Bool
  | [] => prefixMatch needle []
  | b :: bs => prefixMatch needle (b :: bs) || subMatch needle bs

/-- Modelled from the spec: the case-insensitive test whether a meal
description mentions "rice" — the spec's advisory pass counts descriptions
that "contain the substring \"rice\" (case-insensitive)"; the repository
variant carrying this advisory code is not among the files under src/. -/
def containsRice (desc : String) : Bool :=
  subMatch "rice".data (desc.data.map Char.toLower)

/-- The total water of a day's entries. -/
def waterTotal (entries : List LogEntry) : Int :=
  (entries.map LogEntry.water).sum

/-- The number of a day's meal descriptions mentioning rice. -/
def riceCount (entries : List LogEntry) : Nat :=
  (entries.filter (fun e => containsRice e.description)).length

/-- Modelled from the spec: the low-water advisory string of the single-day
summary variant used for scheduled e-mails, absent from the files under
src/. -/
def lowWaterAdvisory : String :=
  "Your water intake today was low. Consider drinking coconut water, zobo, or eating watermelon."

/-- Modelled from the spec: the rice advisory string of the single-day
summary variant used for scheduled e-mails, absent from the files under
src/. -/
def riceAdvisory : String :=
  "You" ++ String.singleton (Char.ofNat 39)
    ++ "ve had rice multiple times today. Try adding more vegetables like efo riro or okra."

/-- Modelled from the spec: the advisory pass applied to the current day's
entries by the single-day "today" summary used for scheduled e-mails (not the
multi-bucket on-demand variant of src/app.py): emit the low-water advisory
when the day's water total is below 4 cups, then the rice advisory when 3 or
more descriptions mention rice, in this fixed order. -/
def todaysAdvisories (entries : List LogEntry) : List String :=
  (if waterTotal entries < 4 then [lowWaterAdvisory] else [])
    ++ (if 3 ≤ riceCount entries then [riceAdvisory] else [])

lemma advisory_strings_distinct : lowWaterAdvisory ≠ riceAdvisory := by decide

/-- C4: the low-water advisory is emitted exactly when the day's water total
is strictly below 4 cups: present whenever the total is < 4 (e.g. 3), absent
whenever it is ≥ 4 (e.g. 4). -/
theorem water_advisory_threshold (entries : List LogEntry) :
    (waterTotal entries < 4 → lowWaterAdvisory ∈ todaysAdvisories entries)
    ∧ (4 ≤ waterTotal entries → lowWaterAdvisory ∉ todaysAdvisories entries) := by
  constructor
  · intro h
    simp [todaysAdvisories, h]
  · intro h
    have hn : ¬ waterTotal entries < 4 := not_lt.mpr h
    simp [todaysAdvisories, hn]
    by_cases hr : 3 ≤ riceCount entries
    · simp [hr]
      exact advisory_strings_distinct
    · simp [hr]

/-- Witness for C4: a day with total water 3 shows the advisory and a day
with total water 4 does not. -/
theorem water_advisory_threshold_witness :
    lowWaterAdvisory ∈ todaysAdvisories
      [⟨"2024-01-02 09:00", "Breakfast", "akara", 3, "2024-01-02", "ada"⟩]
    ∧ lowWaterAdvisory ∉ todaysAdvisories
      [⟨"2024-01-02 09:00", "Breakfast", "akara", 4, "2024-01-02", "ada"⟩] :=
  ⟨(water_advisory_threshold _).1 (by decide),
   (water_advisory_threshold _).2 (by decide)⟩

/-- C5: the rice advisory is emitted exactly when 3 or more of the day's meal
descriptions contain "rice" case-insensitively; with exactly 2 such
descriptions it is absent. -/
theorem rice_advisory_threshold (entries : List LogEntry) :
    (3 ≤ riceCount entries → riceAdvisory ∈ todaysAdvisories entries)
    ∧ (riceCount entries = 2 → riceAdvisory ∉ todaysAdvisories entries) := by
  constructor
  · intro h
    simp [todaysAdvisories, h]
  · intro h
    have hn : ¬ 3 ≤ riceCount entries := by omega
    simp [todaysAdvisories, hn]
    by_cases hw : waterTotal entries < 4
    · simp [hw]
      exact Ne.symm advisory_strings_distinct
    · simp [hw]

/-- Witness for C5: three mixed-case "Rice" descriptions trigger the
advisory; exactly two do not. -/
theorem rice_advisory_threshold_witness :
    riceAdvisory ∈ todaysAdvisories
      [⟨"2024-01-02 09:00", "Breakfast", "Rice pudding", 2, "2024-01-02", "ada"⟩,
       ⟨"2024-01-02 13:00", "Lunch", "Jollof RICE", 2, "2024-01-02", "ada"⟩,
       ⟨"2024-01-02 19:00", "Dinner", "rice and stew", 2, "2024-01-02", "ada"⟩]
    ∧ riceAdvisory ∉ todaysAdvisories
      [⟨"2024-01-02 09:00", "Breakfast", "Rice pudding", 3, "2024-01-02", "ada"⟩,
       ⟨"2024-01-02 13:00", "Lunch", "Jollof RICE", 3, "2024-01-02", "ada"⟩,
       ⟨"2024-01-02 19:00", "Dinner", "beans", 3, "2024-01-02", "ada"⟩] :=
  ⟨(rice_advisory_threshold _).1 (by decide),
   (rice_advisory_threshold _).2 (by decide)⟩

/-- The entries of a stored log dated `today`. -/
def todaysEntries (logs : List LogEntry) (today : String) : List LogEntry :=
  logs.filter (fun e => e.date == today)

/-- Modelled from the spec: whether the scheduled daily job dispatches a
notification for an owner — the cron-like job itself is in a repository
variant not under src/; per the spec it visits every owner with a persisted
file and dispatches today's summary via NotificationDispatcher if and only if
today has at least one entry. -/
def scheduled_job_dispatches (fs : FS) (owner today : String) : Bool :=
  match fs (filePath owner) with
  | none => false
  | some logs => !(todaysEntries logs today).isEmpty

/-- C6: the scheduled job dispatches for an owner exactly when that owner has
at least one persisted entry dated today; with zero entries dated today (or
no file at all) the dispatcher is never called. -/
theorem scheduled_job_dispatch_iff (fs : FS) (owner today : String) :
    scheduled_job_dispatches fs owner today = true
      ↔ ∃ e ∈ loadAll fs owner, e.date = today := by
  cases hfs : fs (filePath owner) with
  | none => simp [scheduled_job_dispatches, loadAll, hfs]
  | some logs =>
    simp [scheduled_job_dispatches, loadAll, hfs, todaysEntries,
      List.isEmpty_iff, List.filter_eq_nil_iff]

/-- Outcome of one NotificationDispatcher send attempt: success or a failure
carrying the exception text (the `smtplib` send of src/app.py lines 97-99). -/
inductive DispatchResult where
  | ok : DispatchResult
  | err : String → DispatchResult
deriving Repr, DecidableEq

/-- Python `str.capitalize()` as used in src/app.py lines 85 and 92: first
character upper-cased, the rest lower-cased. -/
def capitalize (s : String) : String :=
  match s.data with
  | [] => ""
  | c :: rest => String.mk (c.toUpper :: rest.map Char.toLower)

/-- The summary body text built by src/app.py lines 85-89: a header line,
then per bucket a date line, bulleted meal lines, and a water-total line. -/
def renderSummary (owner stype : String) (summary : List (String × Bucket)) :
    String :=
  summary.foldl
    (fun acc kv =>
      acc ++ "📅 " ++ kv.fst ++ "\n" ++ "Meals:\n"
        ++ String.intercalate "\n" (kv.snd.meals.map (fun m => "- " ++ m)) ++ "\n"
        ++ "💧 Water: " ++ toString kv.snd.water ++ " cups\n\n")
    ("NutriPal " ++ capitalize stype ++ " Summary for " ++ owner ++ "\n\n")

/-- `send_summary_email` of src/app.py lines 67-103. The whole body runs in a
`try`/`except` that converts any dispatch failure into the returned "Failed"
message string; the function's value is the user-visible message together
with the list of bodies handed to the mail dispatcher (so that the number of
send attempts is part of the model). -/
def send_summary_email (fs : FS) (owner summary_type : String)
    (dispatch : String → DispatchResult) : String × List String :=
  match fs (filePath owner) with
  | none => ("⚠️ No diet log found for this user.", [])
  | some logs =>
    match dispatch (renderSummary owner summary_type
        (generate_summary logs summary_type)) with
    | DispatchResult.ok =>
        ("✅ Summary sent to your email!",
         [renderSummary owner summary_type (generate_summary logs summary_type)])
    | DispatchResult.err e =>
        ("❌ Failed to send summary: " ++ e,
         [renderSummary owner summary_type (generate_summary logs summary_type)])

/-- C8: `send_summary_email` never raises and never retries — it hands the
rendered body to the dispatcher at most once and always returns a message
string: the failure-describing informational message when dispatch fails, the
success message when dispatch succeeds. -/
theorem send_summary_email_no_raise_no_retry (fs : FS) (owner stype : String)
    (dispatch : String → DispatchResult) (logs : List LogEntry) (msg : String)
    (hfs : fs (filePath owner) = some logs) :
    (send_summary_email fs owner stype dispatch).2.length ≤ 1
    ∧ (dispatch (renderSummary owner stype (generate_summary logs stype))
          = DispatchResult.err msg →
        send_summary_email fs owner stype dispatch
          = ("❌ Failed to send summary: " ++ msg,
             [renderSummary owner stype (generate_summary logs stype)]))
    ∧ (dispatch (renderSummary owner stype (generate_summary logs stype))
          = DispatchResult.ok →
        send_summary_email fs owner stype dispatch
          = ("✅ Summary sent to your email!",
             [renderSummary owner stype (generate_summary logs stype)])) := by
  refine ⟨?_, ?_, ?_⟩
  · simp only [send_summary_email, hfs]
    cases hd : dispatch (renderSummary owner stype (generate_summary logs stype)) with
    | ok => simp
    | err e => simp
  · intro h
    simp only [send_summary_email, hfs, h]
  · intro h
    simp only [send_summary_email, hfs, h]

/-- Witness for C8: with a concrete store and an always-failing dispatcher,
the call returns the failure message and attempted exactly one send. -/
theorem send_summary_email_no_raise_no_retry_witness :
    (send_summary_email
        (fun p => if p = filePath "ada" then some [] else none) "ada" "daily"
        (fun _ => DispatchResult.err "boom")).2.length ≤ 1
    ∧ send_summary_email
        (fun p => if p = filePath "ada" then some [] else none) "ada" "daily"
        (fun _ => DispatchResult.err "boom")
      = ("❌ Failed to send summary: boom",
         [renderSummary "ada" "daily" (generate_summary [] "daily")]) :=
  ⟨(send_summary_email_no_raise_no_retry _ "ada" "daily" _ [] "boom"
      (by simp)).1,
   (send_summary_email_no_raise_no_retry _ "ada" "daily" _ [] "boom"
      (by simp)).2.1 rfl⟩
